import Mathlib

/-!
Verification development for the reindex-and-repair pipeline of es-cli
(src/es_cli/utils.py).  The Python source is shallowly embedded: JSON
documents become an inductive type, Python dict operations become total
functions returning Except values that mirror the exceptions Python
raises (KeyError, IndexError, TypeError, ...), the two process-wide
decision-memo dictionaries and the interactive prompts become explicit
state threaded through the orchestrator functions, and the Elasticsearch
client becomes an abstract document store plus a log of issued writes.
-/

/-- Python exceptions that the embedded code can raise. -/
inductive PyError where
  | keyError (k : String)
  | indexError
  | typeError
  | attributeError
  | zeroDivisionError
  | notFoundError
  | exception (msg : String)
deriving DecidableEq, Repr

/-- JSON document values (an Elasticsearch source body).  Numbers are
modelled as integers; none of the verified code inspects numeric values. -/
inductive Json where
  | null
  | bool (b : Bool)
  | num (n : Int)
  | str (s : String)
  | arr (xs : List Json)
  | obj (kvs : List (String × Json))

/-- First-binding association lookup, the semantics of a Python dict
subscript on our (duplicate-free in practice) key-value lists. -/
def assocLookup {α : Type} : List (String × α) → String → Option α
  | [], _ => none
  | (k', v) :: rest, k => if k' = k then some v else assocLookup rest k

/-- Remove the first binding of a key from a key-value list. -/
def removeFirst : List (String × Json) → String → List (String × Json)
  | [], _ => []
  | (k', v) :: rest, k => if k' = k then rest else (k', v) :: removeFirst rest k

/-- Replace the value of the first binding of a key (append if absent);
models in-place mutation of a Python dict entry. -/
def setFirst : List (String × Json) → String → Json → List (String × Json)
  | [], k, v => [(k, v)]
  | (k', v') :: rest, k, v =>
    if k' = k then (k, v) :: rest else (k', v') :: setFirst rest k v

/-- Whether a key-value list binds a key. -/
def memKey (kvs : List (String × Json)) (k : String) : Bool :=
  kvs.any (fun kv => kv.1 = k)

/-- Python `d[k]` on a JSON value: KeyError when the key is absent from a
dict, TypeError when subscripting a non-dict with a string key. -/
def dictGet (j : Json) (k : String) : Except PyError Json :=
  match j with
  | .obj kvs =>
    match assocLookup kvs k with
    | some v => .ok v
    | none => .error (.keyError k)
  | _ => .error .typeError

/-- Python `d.pop(k)` with no default: KeyError when the key is absent,
TypeError for a list receiver, AttributeError for scalars. -/
def popPy (j : Json) (k : String) : Except PyError Json :=
  match j with
  | .obj kvs =>
    if memKey kvs k then .ok (.obj (removeFirst kvs k)) else .error (.keyError k)
  | .arr _ => .error .typeError
  | _ => .error .attributeError

/-- Python `d[k] = v` for an existing key (models aliased mutation when
rebuilding the enclosing document). -/
def dictSet (j : Json) (k : String) (v : Json) : Json :=
  match j with
  | .obj kvs => .obj (setFirst kvs k v)
  | other => other

/-- Python `s.split(sep)` on character lists: always returns a non-empty
list; an input without the separator yields the one-element list. -/
def splitOnChar (sep : Char) : List Char → List (List Char)
  | [] => [[]]
  | c :: rest =>
    match splitOnChar sep rest with
    | [] => [[]]
    | h :: t => if c = sep then [] :: h :: t else (c :: h) :: t

/-- The key list `bad_field.split('.')` of utils.py line 323. -/
def pySplitDots (s : String) : List String :=
  (splitOnChar '.' s.data).map (fun cs => String.mk cs)

/-!
ErrorClassifier: utils.py lines 42 and 314-319.

The regular expression at line 42 matches the literal text "mapper [",
then one or more characters other than a right bracket (the capture
group field_name), then a right bracket.  Search semantics are leftmost
match: scan positions left to right and return the first position where
the whole pattern matches.  A greedy one-or-more of non-bracket
characters followed by a literal bracket matches exactly when the run of
non-bracket characters after "mapper [" is non-empty and is terminated
by a bracket, so no backtracking case is lost in this embedding.
-/

/-- The literal text before the capture group of the regex at line 42. -/
def mapperPat : List Char := ['m', 'a', 'p', 'p', 'e', 'r', ' ', '[']

/-- Whether the first list is a leading segment of the second. -/
def startsWithChars : List Char → List Char → Bool
  | [], _ => true
  | _ :: _, [] => false
  | p :: ps, c :: cs => if p = c then startsWithChars ps cs else false

/-- The character class of the capture group: anything but a right bracket. -/
def notRBracket (c : Char) : Bool := if c = ']' then false else true

/-- Try to match the capture group plus closing bracket at the current
position (the text just after "mapper ["). -/
def matchFieldAt (cs : List Char) : Option (List Char) :=
  let f := cs.takeWhile notRBracket
  if f = [] then none
  else if (cs.dropWhile notRBracket).head? = some ']' then some f else none

/-- Whether the whole regex matches at the current position: the literal
"mapper [" must lead, then the capture group and closing bracket. -/
def matchesAt (cs : List Char) : Option (List Char) :=
  if startsWithChars mapperPat cs then matchFieldAt (List.drop 8 cs) else none

/-- Leftmost search of the regex over the character list. -/
def searchMapper : List Char → Option (List Char)
  | [] => none
  | c :: rest =>
    match matchesAt (c :: rest) with
    | some f => some f
    | none => searchMapper rest

/-- utils.py lines 314-319: return the captured field name, or raise. -/
def _extract_bad_field (error_str : String) : Except PyError String :=
  match searchMapper error_str.data with
  | some f => .ok (String.mk f)
  | none => .error (.exception ("Unable to extract bad field from " ++ error_str))

/-- A decomposition of a character list exhibiting one occurrence of the
regex pattern of line 42. -/
def MapperOcc (cs g : List Char) : Prop :=
  ∃ pre post, cs = pre ++ mapperPat ++ (g ++ ']' :: post) ∧ g ≠ [] ∧ ∀ c ∈ g, c ≠ ']'

/-!
The repair function: utils.py lines 322-331 (_fix_bad_field).

The Python loop walks cur_elem through keys[:-2] (all but the last two
segments) and then calls cur_elem.pop(keys[-2]).  keys[:-2] and keys[-2]
are embedded structurally: pyDropLastTwo is the Python slice [:-2]
(empty on lists shorter than three) and pyGetNegTwo is the Python
negative index [-2] (the second-to-last element, IndexError on lists
shorter than two).  The in-place mutation through dict aliasing is
embedded by rebuilding the enclosing document with dictSet on the way
back up.  The argument of pop is evaluated by Python only after the
loop, which the embedding mirrors by forcing the victim computation
after the navigation steps.
-/

/-- A document as returned by cli.get: its _type, _id and _source. -/
structure EsRecord where
  doc_type : String
  doc_id : String
  source : Json

/-- The abstract Elasticsearch store behind cli.get: index name and
record id to stored record. -/
def EsDb : Type := String → String → Option EsRecord

/-- Python keys[:-2]. -/
def pyDropLastTwo : List String → List String
  | a :: b :: c :: t => a :: pyDropLastTwo (b :: c :: t)
  | _ => []

/-- The second-to-last element of a :: b :: t. -/
def getSecondToLast (a b : String) : List String → String
  | [] => a
  | c :: t => getSecondToLast b c t

/-- Python keys[-2]: IndexError on lists shorter than two. -/
def pyGetNegTwo : List String → Except PyError String
  | a :: b :: t => .ok (getSecondToLast a b t)
  | _ => .error .indexError

/-- The navigation loop plus final pop of lines 326-329: walk the
remaining navigation keys, then pop the (lazily evaluated) victim key
from the container reached, rebuilding the document on the way up. -/
def fixGo (cur : Json) : List String → Except PyError String → Except PyError Json
  | [], victim =>
    match victim with
    | .error e => .error e
    | .ok v => popPy cur v
  | k :: ks, victim =>
    match dictGet cur k with
    | .error e => .error e
    | .ok child =>
      match fixGo child ks victim with
      | .error e => .error e
      | .ok child' => .ok (dictSet cur k child')

/-- utils.py lines 322-331: split the field path, re-fetch the original
record, walk keys[:-2], pop keys[-2], return the mutated record. -/
def _fix_bad_field (db : EsDb) (index recid : String) (bad_field : String) :
    Except PyError EsRecord :=
  let keys := pySplitDots bad_field
  match db index recid with
  | none => .error .notFoundError
  | some original =>
    match fixGo original.source (pyDropLastTwo keys) (pyGetNegTwo keys) with
    | .error e => .error e
    | .ok newSource => .ok { original with source := newSource }

/-- Pure navigation through nested dict subscripts (no mutation). -/
def navigateGets (doc : Json) : List String → Except PyError Json
  | [] => .ok doc
  | k :: ks =>
    match dictGet doc k with
    | .error e => .error e
    | .ok child => navigateGets child ks

/-- Refinement target written from the words of the specification
(section 4.4 step 5): navigate the re-fetched source document through
the leading path segments and remove the given key from the parent
container reached, rebuilding the document. -/
def specNavigateRemove (doc : Json) : List String → String → Except PyError Json
  | [], victim => popPy doc victim
  | k :: ks, victim =>
    match dictGet doc k with
    | .error e => .error e
    | .ok child =>
      match specNavigateRemove child ks victim with
      | .error e => .error e
      | .ok child' => .ok (dictSet doc k child')

/-!
RepairOrchestrator and DecisionMemo: utils.py lines 334-395.

Globals, prompts and the Elasticsearch client become an explicit World:
the two process-wide memo dictionaries _BAD_FIELDS_ACK_RESPONSES and
_TRY_TO_FIX_RESPONSES, the document store behind cli.get, the log of
writes issued by cli.index (the call at lines 354-358 passes index,
doc_type and body and no id, which the IndexWrite record makes
explicit), the prompts shown by click.confirm together with the stream
of operator answers, and the lines echoed.  Prompt texts and echoed
lines are modelled structurally so that no string-formatting detail is
asserted.

The dynamic dispatch of lines 378-388 looks the name _handle_ plus the
error type up in the module globals; the only module-level name starting
with _handle_ is _handle_illegal_argument_exception, so the lookup
succeeds exactly for the error type illegal_argument_exception.
-/

/-- A confirmation question shown to the operator (click.confirm). -/
inductive Prompt where
  | ackBadField (field : String)
  | tryToFix (recid ty : String)
deriving DecidableEq, Repr

/-- A line echoed or printed by the orchestrator. -/
inductive OutLine where
  | fixedRecord (recid : String)
  | dontKnowHowToHandle (ty recid : String)
deriving DecidableEq, Repr

/-- A document write issued through cli.index. -/
structure IndexWrite where
  index : String
  doc_type : String
  id : Option String
  body : Json

/-- The caused_by object of a bulk error entry: type tag and reason. -/
structure TransferCause where
  ty : String
  reason : String
deriving DecidableEq, Repr

/-- Explicit process state for the repair pipeline. -/
structure World where
  badFieldsAckResponses : List (String × Bool)
  tryToFixResponses : List (String × Bool)
  db : EsDb
  writes : List IndexWrite
  prompts : List Prompt
  promptCount : Nat
  answers : Nat → Bool
  output : List OutLine

/-- click.confirm: record the question, consume the next operator answer. -/
def promptConfirm (msg : Prompt) (w : World) : Bool × World :=
  (w.answers w.promptCount,
   { w with prompts := w.prompts ++ [msg], promptCount := w.promptCount + 1 })

/-- The shared memo idiom of lines 338-345 and 366-373: when the key has
no stored decision yet, store true silently under yesall, otherwise
prompt the operator and store the answer. -/
def consultDecision (memo : List (String × Bool)) (key : String) (yesall : Bool)
    (msg : Prompt) (w : World) : List (String × Bool) × World :=
  match assocLookup memo key with
  | some _ => (memo, w)
  | none =>
    if yesall then ((key, true) :: memo, w)
    else
      let (ans, w') := promptConfirm msg w
      ((key, ans) :: memo, w')

/-- utils.py lines 334-361: classify the field, consult the field-name
memo, and when approved re-fetch and repair the document and write the
mutated body to the target index (cli.index with index, doc_type and
body only; no id argument). -/
def _handle_illegal_argument_exception (index_from index_to recid : String)
    (error : TransferCause) (yesall : Bool) (w : World) :
    Except PyError Unit × World :=
  match _extract_bad_field error.reason with
  | .error e => (.error e, w)
  | .ok field_name =>
    let mw := consultDecision w.badFieldsAckResponses field_name yesall
      (.ackBadField field_name) w
    let w1 := { mw.2 with badFieldsAckResponses := mw.1 }
    match assocLookup w1.badFieldsAckResponses field_name with
    | some true =>
      match _fix_bad_field w1.db index_from recid field_name with
      | .error e => (.error e, w1)
      | .ok new_record =>
        (.ok (), { w1 with
          writes := w1.writes ++ [{ index := index_to,
                                    doc_type := new_record.doc_type,
                                    id := none,
                                    body := new_record.source }],
          output := w1.output ++ [.fixedRecord recid] })
    | _ => (.ok (), w1)

/-- utils.py lines 364-395: consult the error-type memo, then look up a
handler by name; only _handle_illegal_argument_exception exists, every
other type is reported as unhandled and skipped. -/
def _try_to_migrate (index_from index_to recid : String)
    (error : TransferCause) (yesall : Bool) (w : World) :
    Except PyError Unit × World :=
  let err_type := error.ty
  let mw := consultDecision w.tryToFixResponses err_type yesall
    (.tryToFix recid err_type) w
  let w1 := { mw.2 with tryToFixResponses := mw.1 }
  match assocLookup w1.tryToFixResponses err_type with
  | some true =>
    if err_type = "illegal_argument_exception" then
      _handle_illegal_argument_exception index_from index_to recid error yesall w1
    else
      (.ok (),
       { w1 with output := w1.output ++ [.dontKnowHowToHandle err_type recid] })
  | _ => (.ok (), w1)

/-- The field-memo decision that will be in force right after the
consultation at lines 338-345: the stored answer when one exists, else
true under yesall, else the operator's next answer. -/
def ackDecisionAfter (w : World) (field : String) (yesall : Bool) : Bool :=
  match assocLookup w.badFieldsAckResponses field with
  | some b => b
  | none => yesall || w.answers w.promptCount

/-- The type-memo decision that will be in force right after the
consultation at lines 366-373. -/
def typeDecisionAfter (w : World) (ty : String) (yesall : Bool) : Bool :=
  match assocLookup w.tryToFixResponses ty with
  | some b => b
  | none => yesall || w.answers w.promptCount

/-!
FailureLedger and transfer report: utils.py lines 133-165.

save_errors keeps only the index sub-object of each bulk error entry and
serializes the list as a JSON array, opening the destination file in
write mode (truncating any previous content).  Files are modelled as a
map from path to the JSON document they hold.  _reindex is embedded from
the point where the underlying reindex helper has returned: its inputs
are the returned document total, the elapsed wall time, and the raw
error result (the helper returns the number 0 when there are no errors
and a list otherwise, normalized by the line errors = errors or [];
embedded as an Option that getD turns into a list).  Elapsed time is in
whole seconds; the throughput line divides the document total by it,
raising ZeroDivisionError when the elapsed time is zero exactly as the
unguarded Python float division does, and Nat division stands in for the
float value in the report line, which no claim inspects.  Echoed report
lines are modelled structurally.
-/

/-- The list comprehension of lines 134-137: the index sub-object of
each error entry, in order, KeyError if one is missing. -/
def mapIndexFields : List Json → Except PyError (List Json)
  | [] => .ok []
  | e :: rest =>
    match dictGet e "index" with
    | .error er => .error er
    | .ok v =>
      match mapIndexFields rest with
      | .error er => .error er
      | .ok vs => .ok (v :: vs)

/-- utils.py lines 133-140: write the identifiers of the failed
documents to the destination file, overwriting it. -/
def save_errors (errors : List Json) (dst_file_name : String)
    (fs : String → Option Json) : Except PyError (String → Option Json) :=
  match mapIndexFields errors with
  | .error e => .error e
  | .ok ids => .ok (fun p => if p = dst_file_name then some (.arr ids) else fs p)

/-- A line echoed by the transfer report. -/
inductive ReportLine where
  | reindexed (docs secs : Nat)
  | docsPerSecond (rate : Nat)
  | failedDocs (n : Nat)
  | writtenErrors (file : String)
deriving DecidableEq, Repr

/-- utils.py lines 143-165 after the underlying reindex call returned:
normalize the error result, echo the totals and the throughput, and
persist the ledger only when there is at least one failure. -/
def _reindex (tot_docs : Nat) (elapsed : Nat) (errorsRaw : Option (List Json))
    (errors_file : String) (fs : String → Option Json) (out : List ReportLine) :
    Except PyError ((Nat × List Json) × (String → Option Json) × List ReportLine) :=
  let errors := errorsRaw.getD []
  let out1 := out ++ [.reindexed tot_docs elapsed]
  if elapsed = 0 then .error .zeroDivisionError
  else
    let out2 := out1 ++ [.docsPerSecond (tot_docs / elapsed)]
    let out3 := out2 ++ [.failedDocs errors.length]
    if errors.isEmpty then .ok ((tot_docs, errors), fs, out3)
    else
      match save_errors errors errors_file fs with
      | .error e => .error e
      | .ok fs2 => .ok ((tot_docs, errors), fs2, out3 ++ [.writtenErrors errors_file])

/-!
Concrete fixtures used by the per-claim witnesses and counterexamples.
-/

/-- A stored record with a nested field, used by the claim C1 example. -/
def recC1 : EsRecord :=
  ⟨"record", "42", .obj [("title", .str "t"), ("meta", .obj [("bad", .num 1)])]⟩

/-- A world whose store holds recC1 under index src and id 42. -/
def wC1 : World :=
  ⟨[], [], fun i r => if i = "src" then (if r = "42" then some recC1 else none) else none,
   [], [], 0, fun _ => true, []⟩

/-- A world with an empty store, used by the claim C2 example. -/
def wC2 : World := ⟨[], [], fun _ _ => none, [], [], 0, fun _ => true, []⟩

/-- A store for the claim C3 example: the document is an empty object. -/
def dbC3 : EsDb := fun _ _ => some ⟨"t", "1", .obj []⟩

/-- A store for the claim C3 witness: the container a exists but has no
key b. -/
def dbC3w : EsDb := fun _ _ => some ⟨"t", "1", .obj [("a", .obj [("c", .num 1)])]⟩

/-- A world used by the claim C5 example (unknown error type,
non-automatic mode, operator would answer yes). -/
def wC5 : World := ⟨[], [], fun _ _ => none, [], [], 0, fun _ => true, []⟩

/-- A world used by the claim C7 witness. -/
def wC7 : World := ⟨[], [], fun _ _ => none, [], [], 0, fun n => n = 0, []⟩

/-- A store for the claim C8 witness. -/
def recC8 : EsRecord :=
  ⟨"record", "1", .obj [("a", .obj [("b", .num 1), ("keep", .num 2)])]⟩

/-- The store holding recC8 everywhere. -/
def dbC8 : EsDb := fun _ _ => some recC8

/-- A world used by the claim C10 witness: the stored document has a
top-level scalar field title. -/
def wC10 : World :=
  ⟨[], [], fun _ _ => some ⟨"t", "1", .obj [("title", .num 1)]⟩,
   [], [], 0, fun _ => true, []⟩

/-- A bulk error entry used by the claim C9 witness. -/
def errEntryC9 : Json :=
  .obj [("index", .obj [("_index", .str "idx"), ("_id", .str "7")]), ("status", .num 400)]

/-!
Supporting lemmas and claim theorems.
-/

theorem splitOnChar_ne_nil (sep : Char) (cs : List Char) : splitOnChar sep cs ≠ [] := by
  cases cs with
  | nil => simp [splitOnChar]
  | cons c rest =>
    simp only [splitOnChar]
    cases h : splitOnChar sep rest with
    | nil => simp
    | cons h t =>
      by_cases hc : c = sep <;> simp [hc]

theorem splitOnChar_no_sep (sep : Char) (cs : List Char) (h : sep ∉ cs) :
    splitOnChar sep cs = [cs] := by
  induction cs with
  | nil => rfl
  | cons c rest ih =>
    have hc : c ≠ sep := fun hcc => h (hcc ▸ List.mem_cons_self c rest)
    have hrest : sep ∉ rest := fun hm => h (List.mem_cons_of_mem c hm)
    simp only [splitOnChar, ih hrest]
    simp [fun hcc => hc hcc]

theorem pySplitDots_ne_nil (s : String) : pySplitDots s ≠ [] := by
  simp only [pySplitDots, ne_eq, List.map_eq_nil_iff]
  exact splitOnChar_ne_nil '.' s.data

theorem pySplitDots_no_dot (s : String) (h : '.' ∉ s.data) :
    pySplitDots s = [s] := by
  simp only [pySplitDots, splitOnChar_no_sep '.' s.data h]
  rfl

theorem startsWithChars_eq_append (p : List Char) :
    ∀ cs, startsWithChars p cs = true → cs = p ++ List.drop p.length cs := by
  induction p with
  | nil => intro cs _; simp
  | cons a ps ih =>
    intro cs h
    cases cs with
    | nil => simp [startsWithChars] at h
    | cons c rest =>
      simp only [startsWithChars] at h
      by_cases hac : a = c
      · subst hac
        simp only [if_pos rfl] at h
        have := ih rest h
        simpa [List.drop] using congrArg (a :: ·) this
      · simp [hac] at h

theorem startsWithChars_append (p rest : List Char) :
    startsWithChars p (p ++ rest) = true := by
  induction p with
  | nil => rfl
  | cons a ps ih => simpa [startsWithChars] using ih

theorem takeWhile_notRBracket (f post : List Char) (hf : ∀ c ∈ f, c ≠ ']') :
    (f ++ ']' :: post).takeWhile notRBracket = f ∧
    (f ++ ']' :: post).dropWhile notRBracket = ']' :: post := by
  induction f with
  | nil => simp [List.takeWhile, List.dropWhile, notRBracket]
  | cons a t ih =>
    have ha : a ≠ ']' := hf a (List.mem_cons_self a t)
    have ht : ∀ c ∈ t, c ≠ ']' := fun c hc => hf c (List.mem_cons_of_mem a hc)
    have hna : notRBracket a = true := by simp [notRBracket, ha]
    obtain ⟨ih1, ih2⟩ := ih ht
    constructor
    · simp [List.takeWhile, hna, ih1]
    · simp [List.dropWhile, hna, ih2]

theorem matchFieldAt_some (cs f : List Char) (h : matchFieldAt cs = some f) :
    f ≠ [] ∧ (∀ c ∈ f, c ≠ ']') ∧ ∃ post, cs = f ++ ']' :: post := by
  unfold matchFieldAt at h
  by_cases he : cs.takeWhile notRBracket = []
  · simp [he] at h
  · by_cases hh : (cs.dropWhile notRBracket).head? = some ']'
    · simp only [he, if_neg he, hh, if_pos hh] at h
      injection h with hf
      cases hd : cs.dropWhile notRBracket with
      | nil => rw [hd] at hh; simp at hh
      | cons d ds =>
        rw [hd] at hh
        simp only [List.head?] at hh
        injection hh with hdd
        subst hdd
        refine ⟨hf ▸ he, ?_, ds, ?_⟩
        · intro c hc
          rw [← hf] at hc
          have := List.mem_takeWhile_imp hc
          simpa [notRBracket] using this
        · have h2 : cs = cs.takeWhile notRBracket ++ cs.dropWhile notRBracket :=
            (List.takeWhile_append_dropWhile (p := notRBracket) (l := cs)).symm
          rw [hd, hf] at h2
          exact h2
    · simp [he, hh] at h

theorem matchFieldAt_of (f post : List Char) (hne : f ≠ [])
    (hf : ∀ c ∈ f, c ≠ ']') : matchFieldAt (f ++ ']' :: post) = some f := by
  obtain ⟨h1, h2⟩ := takeWhile_notRBracket f post hf
  unfold matchFieldAt
  simp [h1, h2, hne]

theorem matchesAt_some (cs f : List Char) (h : matchesAt cs = some f) :
    f ≠ [] ∧ (∀ c ∈ f, c ≠ ']') ∧ ∃ post, cs = mapperPat ++ (f ++ ']' :: post) := by
  unfold matchesAt at h
  by_cases hs : startsWithChars mapperPat cs = true
  · rw [if_pos hs] at h
    obtain ⟨hne, hnb, post, hpost⟩ := matchFieldAt_some _ _ h
    refine ⟨hne, hnb, post, ?_⟩
    have hcs := startsWithChars_eq_append mapperPat cs hs
    have hlen : mapperPat.length = 8 := rfl
    rw [hlen] at hcs
    rw [hcs, hpost]
  · simp [hs] at h

theorem matchesAt_head (f post : List Char) (hne : f ≠ [])
    (hf : ∀ c ∈ f, c ≠ ']') :
    matchesAt (mapperPat ++ (f ++ ']' :: post)) = some f := by
  unfold matchesAt
  rw [if_pos (startsWithChars_append mapperPat (f ++ ']' :: post))]
  have hdrop : List.drop 8 (mapperPat ++ (f ++ ']' :: post)) = f ++ ']' :: post :=
    List.drop_left mapperPat (f ++ ']' :: post)
  rw [hdrop]
  exact matchFieldAt_of f post hne hf

theorem searchMapper_sound :
    ∀ (cs g : List Char), searchMapper cs = some g → MapperOcc cs g := by
  intro cs
  induction cs with
  | nil => intro g h; simp [searchMapper] at h
  | cons c rest ih =>
    intro g h
    simp only [searchMapper] at h
    cases hm : matchesAt (c :: rest) with
    | some f =>
      rw [hm] at h
      simp only at h
      injection h with hfg
      subst hfg
      obtain ⟨hne, hnb, post, hpost⟩ := matchesAt_some _ _ hm
      exact ⟨[], post, by simpa using hpost, hne, hnb⟩
    | none =>
      rw [hm] at h
      simp only at h
      obtain ⟨pre, post, hdec, hne, hnb⟩ := ih g h
      exact ⟨c :: pre, post, by simp [hdec], hne, hnb⟩

theorem searchMapper_cons_isSome (c : Char) (rest : List Char)
    (h : (searchMapper rest).isSome = true) :
    (searchMapper (c :: rest)).isSome = true := by
  simp only [searchMapper]
  cases hm : matchesAt (c :: rest) with
  | some f => simp
  | none => simpa using h

theorem searchMapper_complete (pre g post : List Char) (hne : g ≠ [])
    (hnb : ∀ c ∈ g, c ≠ ']') :
    (searchMapper (pre ++ mapperPat ++ (g ++ ']' :: post))).isSome = true := by
  induction pre with
  | nil =>
    have hhead := matchesAt_head g post hne hnb
    have hsplit : mapperPat ++ (g ++ ']' :: post) =
        'm' :: (['a', 'p', 'p', 'e', 'r', ' ', '['] ++ (g ++ ']' :: post)) := rfl
    rw [List.nil_append, hsplit]
    simp only [searchMapper]
    rw [← hsplit, hhead]
    simp
  | cons a pre' ih =>
    have : a :: pre' ++ mapperPat ++ (g ++ ']' :: post) =
        a :: (pre' ++ mapperPat ++ (g ++ ']' :: post)) := by simp
    rw [this]
    exact searchMapper_cons_isSome a _ ih

theorem fixGo_ok_victim (v : String) :
    ∀ (ks : List String) (cur : Json),
      fixGo cur ks (.ok v) = specNavigateRemove cur ks v := by
  intro ks
  induction ks with
  | nil => intro cur; rfl
  | cons k ks ih =>
    intro cur
    simp only [fixGo, specNavigateRemove]
    cases dictGet cur k with
    | error e => rfl
    | ok child =>
      dsimp only
      rw [ih child]

theorem fixGo_err_victim (e : PyError) :
    ∀ (ks : List String) (cur : Json) (c : Json),
      navigateGets cur ks = .ok c → fixGo cur ks (.error e) = .error e := by
  intro ks
  induction ks with
  | nil => intro cur c _; rfl
  | cons k ks ih =>
    intro cur c hnav
    simp only [navigateGets] at hnav
    simp only [fixGo]
    cases hg : dictGet cur k with
    | error e' => rw [hg] at hnav; exact absurd hnav (by simp)
    | ok child =>
      rw [hg] at hnav
      dsimp only at hnav
      dsimp only
      rw [ih child c hnav]

theorem fixGo_pop_err (e : PyError) (v : String) :
    ∀ (ks : List String) (cur : Json) (c : Json),
      navigateGets cur ks = .ok c → popPy c v = .error e →
      fixGo cur ks (.ok v) = .error e := by
  intro ks
  induction ks with
  | nil =>
    intro cur c hnav hpop
    simp only [navigateGets] at hnav
    injection hnav with hnav
    subst hnav
    simpa [fixGo] using hpop
  | cons k ks ih =>
    intro cur c hnav hpop
    simp only [navigateGets] at hnav
    simp only [fixGo]
    cases hg : dictGet cur k with
    | error e' => rw [hg] at hnav; exact absurd hnav (by simp)
    | ok child =>
      rw [hg] at hnav
      dsimp only at hnav
      dsimp only
      rw [ih child c hnav hpop]

theorem pyDropLastTwo_eq_dropLast :
    ∀ (l : List String), pyDropLastTwo l = l.dropLast.dropLast := by
  intro l
  match l with
  | [] => rfl
  | [a] => rfl
  | [a, b] => rfl
  | a :: b :: c :: t =>
    have ih := pyDropLastTwo_eq_dropLast (b :: c :: t)
    simp only [pyDropLastTwo, ih, List.dropLast]

theorem getSecondToLast_eq_getLastD :
    ∀ (t : List String) (a b : String),
      getSecondToLast a b t = ((a :: b :: t).dropLast).getLastD "" := by
  intro t
  induction t with
  | nil => intro a b; rfl
  | cons c t ih =>
    intro a b
    simp only [getSecondToLast, ih b c]
    simp [List.dropLast, List.getLastD_cons]

theorem pyGetNegTwo_eq (l : List String) (h : 2 ≤ l.length) :
    pyGetNegTwo l = .ok (l.dropLast.getLastD "") := by
  match l with
  | [] => simp at h
  | [a] => simp at h
  | a :: b :: t =>
    simp only [pyGetNegTwo, getSecondToLast_eq_getLastD]

theorem consultDecision_db (memo : List (String × Bool)) (key : String)
    (yesall : Bool) (msg : Prompt) (w : World) :
    (consultDecision memo key yesall msg w).2.db = w.db := by
  unfold consultDecision promptConfirm
  cases assocLookup memo key <;> by_cases hy : yesall = true <;> simp [hy]

theorem consultDecision_writes (memo : List (String × Bool)) (key : String)
    (yesall : Bool) (msg : Prompt) (w : World) :
    (consultDecision memo key yesall msg w).2.writes = w.writes := by
  unfold consultDecision promptConfirm
  cases assocLookup memo key <;> by_cases hy : yesall = true <;> simp [hy]

theorem consultDecision_output (memo : List (String × Bool)) (key : String)
    (yesall : Bool) (msg : Prompt) (w : World) :
    (consultDecision memo key yesall msg w).2.output = w.output := by
  unfold consultDecision promptConfirm
  cases assocLookup memo key <;> by_cases hy : yesall = true <;> simp [hy]

theorem consultDecision_memos (memo : List (String × Bool)) (key : String)
    (yesall : Bool) (msg : Prompt) (w : World) :
    (consultDecision memo key yesall msg w).2.badFieldsAckResponses =
      w.badFieldsAckResponses ∧
    (consultDecision memo key yesall msg w).2.tryToFixResponses =
      w.tryToFixResponses := by
  unfold consultDecision promptConfirm
  cases assocLookup memo key <;> by_cases hy : yesall = true <;> simp [hy]

/-- Claim C8: for a field path of at least two dot-separated segments,
the repair navigates the re-fetched source document through all segments
but the last two and removes the second-to-last segment's key from the
parent container reached - one level above the deepest reported segment,
never the deepest segment itself. -/
theorem C8_removes_second_to_last (db : EsDb) (index recid bad_field : String)
    (rec0 : EsRecord) (hdb : db index recid = some rec0)
    (hlen : 2 ≤ (pySplitDots bad_field).length) :
    _fix_bad_field db index recid bad_field =
      (specNavigateRemove rec0.source ((pySplitDots bad_field).dropLast.dropLast)
        (((pySplitDots bad_field).dropLast).getLastD "")).map
        (fun s2 => { rec0 with source := s2 }) := by
  unfold _fix_bad_field
  rw [hdb]
  dsimp only
  rw [pyGetNegTwo_eq _ hlen, fixGo_ok_victim, pyDropLastTwo_eq_dropLast]
  cases hs : specNavigateRemove rec0.source ((pySplitDots bad_field).dropLast.dropLast)
      (((pySplitDots bad_field).dropLast).getLastD "") with
  | error e => simp [Except.map]
  | ok ns => simp [Except.map]

/-- Witness for claim C8 at the concrete path a.b.c: the repair on dbC8
removes key b (the second-to-last segment) from container a. -/
theorem C8_witness :
    _fix_bad_field dbC8 "i" "1" "a.b.c" =
      (specNavigateRemove recC8.source ((pySplitDots "a.b.c").dropLast.dropLast)
        (((pySplitDots "a.b.c").dropLast).getLastD "")).map
        (fun s2 => { recC8 with source := s2 }) :=
  C8_removes_second_to_last dbC8 "i" "1" "a.b.c" recC8 rfl (by decide)

/-- Claim C3 counterexample: repairing field a.b on a document whose body
is the empty object is not a no-op - cur_elem.pop(keys[-2]) raises
KeyError a, because dict.pop with a single argument raises on a missing
key.  The claim asserts the repair must not raise in this situation. -/
theorem C3_counterexample :
    _fix_bad_field dbC3 "i" "1" "a.b" = .error (.keyError "a") := rfl

/-- Claim C3 (amended): when the second-to-last segment's key is missing
from its parent container, the repair raises KeyError for that key
instead of being a no-op, so applying the repair twice to the same
document is not safe - the second application fails. -/
theorem C3_amended_missing_key_raises (db : EsDb) (index recid bad_field : String)
    (rec0 : EsRecord) (kvs : List (String × Json))
    (hdb : db index recid = some rec0)
    (hlen : 2 ≤ (pySplitDots bad_field).length)
    (hnav : navigateGets rec0.source (pyDropLastTwo (pySplitDots bad_field)) =
      .ok (.obj kvs))
    (habs : memKey kvs (((pySplitDots bad_field).dropLast).getLastD "") = false) :
    _fix_bad_field db index recid bad_field =
      .error (.keyError (((pySplitDots bad_field).dropLast).getLastD "")) := by
  unfold _fix_bad_field
  rw [hdb]
  dsimp only
  rw [pyGetNegTwo_eq _ hlen]
  have hpop : popPy (.obj kvs) (((pySplitDots bad_field).dropLast).getLastD "") =
      .error (.keyError (((pySplitDots bad_field).dropLast).getLastD "")) := by
    simp only [popPy]
    rw [habs]
    rfl
  rw [fixGo_pop_err _ _ _ _ _ hnav hpop]

/-- Witness for the amended claim C3: repairing a.b.c when container a
exists but has no key b raises KeyError b. -/
theorem C3_witness :
    _fix_bad_field dbC3w "i" "1" "a.b.c" =
      .error (.keyError (((pySplitDots "a.b.c").dropLast).getLastD "")) :=
  C3_amended_missing_key_raises dbC3w "i" "1" "a.b.c"
    ⟨"t", "1", .obj [("a", .obj [("c", .num 1)])]⟩ [("c", .num 1)]
    rfl (by decide) rfl (by decide)

/-- Claim C10: for a classified field name with no path separator the
repair fails with the out-of-range access keys[-2] before any write is
issued, and a repair can only succeed when the split path has at least
two segments. -/
theorem C10_single_segment_out_of_range (index_from index_to recid : String)
    (error : TransferCause) (yesall : Bool) (w : World) (field : String)
    (rec0 : EsRecord)
    (hext : _extract_bad_field error.reason = .ok field)
    (hdot : '.' ∉ field.data)
    (hdb : w.db index_from recid = some rec0) :
    _fix_bad_field w.db index_from recid field = .error .indexError ∧
    (_handle_illegal_argument_exception index_from index_to recid
      error yesall w).2.writes = w.writes ∧
    ∀ (db : EsDb) (i r bf : String) (rec1 : EsRecord),
      _fix_bad_field db i r bf = .ok rec1 → 2 ≤ (pySplitDots bf).length := by
  have hkeys : pySplitDots field = [field] := pySplitDots_no_dot field hdot
  have h1 : _fix_bad_field w.db index_from recid field = .error .indexError := by
    unfold _fix_bad_field
    rw [hdb]
    dsimp only
    rw [hkeys]
    rfl
  refine ⟨h1, ?_, ?_⟩
  · unfold _handle_illegal_argument_exception
    rw [hext]
    dsimp only
    have hdb1 : (consultDecision w.badFieldsAckResponses field yesall
        (.ackBadField field) w).2.db = w.db :=
      consultDecision_db _ _ _ _ _
    have hwr1 : (consultDecision w.badFieldsAckResponses field yesall
        (.ackBadField field) w).2.writes = w.writes :=
      consultDecision_writes _ _ _ _ _
    cases hq : assocLookup (consultDecision w.badFieldsAckResponses field yesall
        (.ackBadField field) w).1 field with
    | none => simp [hq, hwr1]
    | some b =>
      cases b with
      | false => simp [hq, hwr1]
      | true =>
        have hfix : _fix_bad_field (consultDecision w.badFieldsAckResponses field
            yesall (.ackBadField field) w).2.db index_from recid field =
            .error .indexError := by
          rw [hdb1]; exact h1
        simp [hq, hfix, hwr1]
  · intro db i r bf rec1 hfix
    by_contra hlt
    push_neg at hlt
    have hne := pySplitDots_ne_nil bf
    have hlen1 : (pySplitDots bf).length = 1 := by
      have hpos : 0 < (pySplitDots bf).length := List.length_pos.mpr hne
      omega
    obtain ⟨x, hx⟩ := List.length_eq_one.mp hlen1
    unfold _fix_bad_field at hfix
    rw [hx] at hfix
    cases hdbx : db i r with
    | none => rw [hdbx] at hfix; exact absurd hfix (by simp)
    | some orig =>
      rw [hdbx] at hfix
      simp [pyDropLastTwo, pyGetNegTwo, fixGo] at hfix

/-- Witness for claim C10: the single-segment field title extracted from
the reason mapper [title] makes the repair raise IndexError and the
handler issue no write. -/
theorem C10_witness :
    _fix_bad_field wC10.db "i" "1" "title" = .error .indexError ∧
    (_handle_illegal_argument_exception "i" "tgt" "1"
      ⟨"illegal_argument_exception", "mapper [title]"⟩ true wC10).2.writes =
      wC10.writes ∧
    ∀ (db : EsDb) (i r bf : String) (rec1 : EsRecord),
      _fix_bad_field db i r bf = .ok rec1 → 2 ≤ (pySplitDots bf).length :=
  C10_single_segment_out_of_range "i" "tgt" "1"
    ⟨"illegal_argument_exception", "mapper [title]"⟩ true wC10 "title"
    ⟨"t", "1", .obj [("title", .num 1)]⟩ rfl (by decide) rfl

theorem assocLookup_mem {α : Type} :
    ∀ (l : List (String × α)) (k : String) (v : α),
      assocLookup l k = some v → (k, v) ∈ l := by
  intro l
  induction l with
  | nil => intro k v h; simp [assocLookup] at h
  | cons p rest ih =>
    intro k v h
    obtain ⟨k', v'⟩ := p
    simp only [assocLookup] at h
    by_cases hk : k' = k
    · rw [if_pos hk] at h
      injection h with h
      subst hk
      subst h
      exact List.mem_cons_self _ _
    · rw [if_neg hk] at h
      exact List.mem_cons_of_mem _ (ih k v h)

/-- Claim C6: a reason string containing a substring of the form
mapper [field] (field non-empty and bracket-free) is classified
successfully and the classifier returns exactly the text standing
between the brackets of an occurrence of the pattern; a reason string
without any such substring fails classification with the exception. -/
theorem C6_classifier_bracket_extraction (s : String) :
    (∀ g, _extract_bad_field s = .ok g →
      g.data ≠ [] ∧ (∀ c ∈ g.data, c ≠ ']') ∧ MapperOcc s.data g.data) ∧
    ((∃ f, MapperOcc s.data f) →
      ∃ g, _extract_bad_field s = .ok g ∧ MapperOcc s.data g.data) ∧
    ((¬ ∃ f, MapperOcc s.data f) →
      _extract_bad_field s =
        .error (.exception ("Unable to extract bad field from " ++ s))) := by
  refine ⟨?_, ?_, ?_⟩
  · intro g h
    unfold _extract_bad_field at h
    cases hm : searchMapper s.data with
    | some f =>
      rw [hm] at h
      dsimp only at h
      injection h with h
      have hg : g.data = f := by rw [← h]
      obtain ⟨pre, post, hdec, hne, hnb⟩ := searchMapper_sound s.data f hm
      exact ⟨by rw [hg]; exact hne, by rw [hg]; exact hnb,
        pre, post, by rw [hg]; exact hdec, by rw [hg]; exact hne,
        by rw [hg]; exact hnb⟩
    | none =>
      rw [hm] at h
      exact absurd h (by simp)
  · rintro ⟨f, pre, post, hdec, hne, hnb⟩
    have hsome := searchMapper_complete pre f post hne hnb
    rw [← hdec] at hsome
    cases hm : searchMapper s.data with
    | none => rw [hm] at hsome; simp at hsome
    | some f2 =>
      refine ⟨String.mk f2, ?_, ?_⟩
      · unfold _extract_bad_field
        rw [hm]
      · exact searchMapper_sound s.data f2 hm
  · intro hno
    unfold _extract_bad_field
    cases hm : searchMapper s.data with
    | some f => exact absurd ⟨f, searchMapper_sound s.data f hm⟩ hno
    | none => rfl

/-- Witness for claim C6: the reason string containing mapper [foo.bar]
is classified and the result is the bracketed text foo.bar of an
occurrence of the pattern. -/
theorem C6_witness :
    ∃ g, _extract_bad_field "failed: mapper [foo.bar] of other type" = .ok g ∧
      MapperOcc ("failed: mapper [foo.bar] of other type" : String).data g.data :=
  (C6_classifier_bracket_extraction "failed: mapper [foo.bar] of other type").2.1
    ⟨"foo.bar".data, "failed: ".data, " of other type".data,
      by decide, by decide, by decide⟩

/-- Claim C7: for every decision key the operator is prompted at most
once per process.  A key already stored in the memo is answered from the
memo with no prompt and unchanged state; a first consultation in
non-automatic mode prompts exactly once and stores the operator's
answer, which later consultations return; in automatic-yes mode a
consultation never prompts, and in a run that has been automatic-yes
throughout (so the memo holds only affirmative entries) every
consultation answers true; after any consultation the key is stored, so
a second consultation never prompts. -/
theorem C7_decision_memo_prompts_once (memo : List (String × Bool)) (key : String)
    (yesall : Bool) (msg : Prompt) (w : World) :
    (∀ b, assocLookup memo key = some b →
      consultDecision memo key yesall msg w = (memo, w)) ∧
    (assocLookup memo key = none → yesall = false →
      consultDecision memo key yesall msg w =
        ((key, w.answers w.promptCount) :: memo,
         { w with prompts := w.prompts ++ [msg],
                  promptCount := w.promptCount + 1 }) ∧
      assocLookup ((key, w.answers w.promptCount) :: memo) key =
        some (w.answers w.promptCount)) ∧
    (yesall = true →
      (consultDecision memo key yesall msg w).2.prompts = w.prompts ∧
      ((∀ e ∈ memo, e.2 = true) →
        assocLookup (consultDecision memo key yesall msg w).1 key = some true)) ∧
    (assocLookup (consultDecision memo key yesall msg w).1 key).isSome = true := by
  refine ⟨?_, ?_, ?_, ?_⟩
  · intro b hb
    unfold consultDecision
    rw [hb]
  · intro hn hy
    subst hy
    unfold consultDecision
    rw [hn]
    refine ⟨?_, ?_⟩
    · dsimp only [promptConfirm]
      rfl
    · simp [assocLookup]
  · intro hy
    subst hy
    constructor
    · unfold consultDecision
      cases hq : assocLookup memo key with
      | some b => rfl
      | none => rfl
    · intro hall
      unfold consultDecision
      cases hq : assocLookup memo key with
      | some b =>
        dsimp only
        have hb : b = true := hall _ (assocLookup_mem memo key b hq)
        rw [hq, hb]
      | none =>
        dsimp only
        simp [assocLookup]
  · unfold consultDecision
    cases hq : assocLookup memo key with
    | some b =>
      dsimp only
      rw [hq]
      rfl
    | none =>
      by_cases hy : yesall = true
      · subst hy
        dsimp only
        simp [assocLookup]
      · have hy' : yesall = false := by
          cases yesall
          · rfl
          · exact absurd rfl hy
        subst hy'
        dsimp only [promptConfirm]
        simp [assocLookup]

/-- Witness for claim C7: the first consultation of key k in
non-automatic mode on wC7 prompts once and stores the operator's
answer. -/
theorem C7_witness :
    consultDecision [] "k" false (.ackBadField "k") wC7 =
      (("k", wC7.answers wC7.promptCount) :: [],
       { wC7 with prompts := wC7.prompts ++ [.ackBadField "k"],
                  promptCount := wC7.promptCount + 1 }) ∧
    assocLookup (("k", wC7.answers wC7.promptCount) :: []) "k" =
      some (wC7.answers wC7.promptCount) :=
  (C7_decision_memo_prompts_once [] "k" false (.ackBadField "k") wC7).2.1 rfl rfl

/-- Claim C4 counterexample: the throughput division at utils.py line
155 has no zero guard - a transfer of zero documents from an empty
source whose measured wall time rounds to zero seconds raises
ZeroDivisionError instead of reporting 0 processed and 0 failures. -/
theorem C4_counterexample :
    _reindex 0 0 none "errors.json" (fun _ => none) [] =
      .error .zeroDivisionError := rfl

/-- Claim C4 (amended): the throughput division is not guarded - it
raises ZeroDivisionError exactly when the elapsed wall time is zero.  A
transfer of zero documents does not itself divide by zero because the
divisor is the elapsed time, not the document count: whenever the
elapsed time is non-zero, an empty transfer reports 0 processed and 0
failures and leaves the file system untouched. -/
theorem C4_amended_throughput_report (elapsed : Nat) (efile : String)
    (fs : String → Option Json) (out : List ReportLine) (h : elapsed ≠ 0) :
    _reindex 0 elapsed none efile fs out =
      .ok ((0, []), fs,
        out ++ [.reindexed 0 elapsed, .docsPerSecond 0, .failedDocs 0]) := by
  unfold _reindex
  rw [if_neg h]
  simp

/-- Witness for the amended claim C4: an empty transfer taking one
second reports 0 processed, 0 failures, no division error and no ledger
write. -/
theorem C4_witness :
    _reindex 0 1 none "errors.json" (fun _ => none) [] =
      .ok ((0, []), (fun _ => none),
        [ReportLine.reindexed 0 1, .docsPerSecond 0, .failedDocs 0]) :=
  C4_amended_throughput_report 1 "errors.json" (fun _ => none) [] (by decide)

theorem mapIndexFields_forall2 :
    ∀ (l : List Json) (ids : List Json), mapIndexFields l = .ok ids →
      List.Forall₂ (fun e v => dictGet e "index" = .ok v) l ids := by
  intro l
  induction l with
  | nil =>
    intro ids h
    simp only [mapIndexFields] at h
    injection h with h
    subst h
    exact List.Forall₂.nil
  | cons e rest ih =>
    intro ids h
    simp only [mapIndexFields] at h
    cases hg : dictGet e "index" with
    | error er => rw [hg] at h; exact absurd h (by simp)
    | ok v =>
      rw [hg] at h
      dsimp only at h
      cases hr : mapIndexFields rest with
      | error er => rw [hr] at h; exact absurd h (by simp)
      | ok vs =>
        rw [hr] at h
        dsimp only at h
        injection h with h
        subst h
        exact List.Forall₂.cons hg (ih vs hr)

/-- Claim C9: after a completed transfer the ledger file is written if
and only if at least one failure occurred; when written it holds a JSON
array whose entries are, in order, exactly the index sub-objects of the
failed documents (not the full bodies), it replaces any existing content
at that path, and no other file changes. -/
theorem C9_ledger_iff_failures (tot elapsed : Nat) (errorsRaw : Option (List Json))
    (efile : String) (fs : String → Option Json) (out : List ReportLine)
    (ids : List Json) (hel : elapsed ≠ 0)
    (hids : mapIndexFields (errorsRaw.getD []) = .ok ids) :
    ∃ fs2 out2,
      _reindex tot elapsed errorsRaw efile fs out =
        .ok ((tot, errorsRaw.getD []), fs2, out2) ∧
      (errorsRaw.getD [] = [] → fs2 = fs) ∧
      (errorsRaw.getD [] ≠ [] →
        fs2 efile = some (.arr ids) ∧ ∀ p, p ≠ efile → fs2 p = fs p) ∧
      List.Forall₂ (fun e v => dictGet e "index" = .ok v) (errorsRaw.getD []) ids ∧
      (fs efile = none → ((fs2 efile).isSome = true ↔ errorsRaw.getD [] ≠ [])) := by
  have hf2 := mapIndexFields_forall2 _ _ hids
  unfold _reindex
  rw [if_neg hel]
  by_cases hemp : (errorsRaw.getD []).isEmpty = true
  · have hnil : errorsRaw.getD [] = [] := List.isEmpty_iff.mp hemp
    rw [if_pos hemp]
    refine ⟨fs, _, rfl, fun _ => rfl, fun hne => absurd hnil hne, hf2, ?_⟩
    intro hnone
    simp [hnone, hnil]
  · have hne : errorsRaw.getD [] ≠ [] := by
      intro hnil
      rw [hnil] at hemp
      exact hemp rfl
    rw [if_neg hemp]
    unfold save_errors
    rw [hids]
    dsimp only
    refine ⟨_, _, rfl, fun hnil => absurd hnil hne, fun _ => ⟨?_, ?_⟩, hf2, ?_⟩
    · simp
    · intro p hp
      simp [hp]
    · intro hnone
      constructor
      · intro _
        exact hne
      · intro _
        simp

/-- Witness for claim C9: a transfer with one failed document writes the
ledger holding exactly that document's index sub-object. -/
theorem C9_witness :
    ∃ fs2 out2,
      _reindex 3 2 (some [errEntryC9]) "errors.json" (fun _ => none) [] =
        .ok ((3, [errEntryC9]), fs2, out2) ∧
      ([errEntryC9] = ([] : List Json) → fs2 = (fun _ => none)) ∧
      ([errEntryC9] ≠ ([] : List Json) →
        fs2 "errors.json" =
          some (.arr [Json.obj [("_index", .str "idx"), ("_id", .str "7")]]) ∧
        ∀ p, p ≠ "errors.json" → fs2 p = none) ∧
      List.Forall₂ (fun e v => dictGet e "index" = .ok v) [errEntryC9]
        [Json.obj [("_index", .str "idx"), ("_id", .str "7")]] ∧
      ((none : Option Json) = none → ((fs2 "errors.json").isSome = true ↔
        [errEntryC9] ≠ ([] : List Json))) :=
  C9_ledger_iff_failures 3 2 (some [errEntryC9]) "errors.json" (fun _ => none) []
    [Json.obj [("_index", .str "idx"), ("_id", .str "7")]] (by decide) rfl

theorem consultDecision_lookup (memo : List (String × Bool)) (key : String)
    (yesall : Bool) (msg : Prompt) (w : World) :
    assocLookup (consultDecision memo key yesall msg w).1 key =
      some (match assocLookup memo key with
            | some b => b
            | none => yesall || w.answers w.promptCount) := by
  unfold consultDecision
  cases hq : assocLookup memo key with
  | some b =>
    dsimp only
    exact hq
  | none =>
    cases yesall with
    | false =>
      dsimp only [promptConfirm]
      simp [assocLookup]
    | true =>
      dsimp only
      simp [assocLookup]

theorem consultDecision_prompts_first (memo : List (String × Bool)) (key : String)
    (msg : Prompt) (w : World) (hn : assocLookup memo key = none) :
    (consultDecision memo key false msg w).2.prompts = w.prompts ++ [msg] := by
  unfold consultDecision promptConfirm
  rw [hn]
  rfl

/-- Claim C1 counterexample: on a concrete approved repair the write
issued to the target index carries no document id at all (the cli.index
call at lines 354-358 passes only index, doc_type and body), while the
original record's id is 42 - the mutated body is not written under the
same id. -/
theorem C1_counterexample :
    (_handle_illegal_argument_exception "src" "tgt" "42"
        ⟨"illegal_argument_exception", "mapper [meta.bad]"⟩ true wC1).2.writes =
      [{ index := "tgt", doc_type := "record", id := none,
         body := .obj [("title", .str "t")] }] ∧
    recC1.doc_id = "42" := ⟨rfl, rfl⟩

/-- Claim C1 (amended): when the operator approves the repair and the
repair succeeds, the mutated document body is written to the target
index under the same document type as the original record but with no
document id specified - the write does not carry the original id, the
cluster assigns a fresh one. -/
theorem C1_amended_write_without_id (index_from index_to recid : String)
    (error : TransferCause) (yesall : Bool) (w : World) (field : String)
    (rec0 rec1 : EsRecord)
    (hext : _extract_bad_field error.reason = .ok field)
    (hdb : w.db index_from recid = some rec0)
    (happ : ackDecisionAfter w field yesall = true)
    (hfix : _fix_bad_field w.db index_from recid field = .ok rec1) :
    (_handle_illegal_argument_exception index_from index_to recid
      error yesall w).1 = .ok () ∧
    (_handle_illegal_argument_exception index_from index_to recid
      error yesall w).2.writes =
      w.writes ++ [{ index := index_to, doc_type := rec0.doc_type, id := none,
                     body := rec1.source }] := by
  have htype : rec1.doc_type = rec0.doc_type := by
    unfold _fix_bad_field at hfix
    rw [hdb] at hfix
    dsimp only at hfix
    cases hgo : fixGo rec0.source (pyDropLastTwo (pySplitDots field))
        (pyGetNegTwo (pySplitDots field)) with
    | error e => rw [hgo] at hfix; exact absurd hfix (by simp)
    | ok ns =>
      rw [hgo] at hfix
      dsimp only at hfix
      injection hfix with hfix
      rw [← hfix]
  unfold _handle_illegal_argument_exception
  rw [hext]
  dsimp only
  have hlook := consultDecision_lookup w.badFieldsAckResponses field yesall
    (.ackBadField field) w
  rw [show (match assocLookup w.badFieldsAckResponses field with
        | some b => b
        | none => yesall || w.answers w.promptCount) =
      ackDecisionAfter w field yesall from rfl] at hlook
  rw [happ] at hlook
  rw [hlook]
  dsimp only
  have hdb1 : (consultDecision w.badFieldsAckResponses field yesall
      (.ackBadField field) w).2.db = w.db :=
    consultDecision_db _ _ _ _ _
  rw [hdb1, hfix]
  refine ⟨rfl, ?_⟩
  dsimp only
  rw [consultDecision_writes, htype]

/-- Witness for the amended claim C1: the repair of field meta.bad on
record 42 writes the mutated body under type record with no id. -/
theorem C1_witness :
    (_handle_illegal_argument_exception "src" "tgt" "42"
      ⟨"illegal_argument_exception", "mapper [meta.bad]"⟩ true wC1).1 = .ok () ∧
    (_handle_illegal_argument_exception "src" "tgt" "42"
      ⟨"illegal_argument_exception", "mapper [meta.bad]"⟩ true wC1).2.writes =
      wC1.writes ++
        [{ index := "tgt", doc_type := recC1.doc_type, id := none,
           body := (⟨"record", "42", .obj [("title", .str "t")]⟩ : EsRecord).source }] :=
  C1_amended_write_without_id "src" "tgt" "42"
    ⟨"illegal_argument_exception", "mapper [meta.bad]"⟩ true wC1 "meta.bad"
    recC1 ⟨"record", "42", .obj [("title", .str "t")]⟩ rfl rfl rfl rfl

/-- Claim C2 counterexample: on a reason string without the mapper
pattern the classification exception propagates out of the orchestrator
as an error result and nothing is logged - the run does not continue
past it, contradicting logged-and-continues. -/
theorem C2_counterexample :
    (_try_to_migrate "a" "b" "9"
      ⟨"illegal_argument_exception", "no pattern here"⟩ true wC2).1 =
      .error (.exception "Unable to extract bad field from no pattern here") ∧
    (_try_to_migrate "a" "b" "9"
      ⟨"illegal_argument_exception", "no pattern here"⟩ true wC2).2.output = [] :=
  ⟨rfl, rfl⟩

/-- Claim C2 (amended): when the type gate approves and classification
fails, the exception propagates uncaught out of the repair pipeline: the
document is left unrepaired and no write is issued, but the failure is
not logged by the pipeline and the migration attempt aborts with the
raised exception instead of continuing. -/
theorem C2_amended_classification_error_propagates
    (index_from index_to recid : String) (error : TransferCause) (yesall : Bool)
    (w : World) (e : PyError)
    (hty : error.ty = "illegal_argument_exception")
    (hext : _extract_bad_field error.reason = .error e)
    (happ : typeDecisionAfter w error.ty yesall = true) :
    (_try_to_migrate index_from index_to recid error yesall w).1 = .error e ∧
    (_try_to_migrate index_from index_to recid error yesall w).2.writes =
      w.writes ∧
    (_try_to_migrate index_from index_to recid error yesall w).2.output =
      w.output := by
  unfold _try_to_migrate
  dsimp only
  have hlook := consultDecision_lookup w.tryToFixResponses error.ty yesall
    (.tryToFix recid error.ty) w
  rw [show (match assocLookup w.tryToFixResponses error.ty with
        | some b => b
        | none => yesall || w.answers w.promptCount) =
      typeDecisionAfter w error.ty yesall from rfl] at hlook
  rw [happ] at hlook
  rw [hlook]
  dsimp only
  rw [if_pos hty]
  unfold _handle_illegal_argument_exception
  rw [hext]
  exact ⟨rfl, consultDecision_writes _ _ _ _ _, consultDecision_output _ _ _ _ _⟩

/-- Witness for the amended claim C2: an unparseable reason under an
approved type gate yields the propagated exception, no write and no
logged line. -/
theorem C2_witness :
    (_try_to_migrate "a" "b" "9"
      ⟨"illegal_argument_exception", "broken"⟩ true wC2).1 =
      .error (.exception "Unable to extract bad field from broken") ∧
    (_try_to_migrate "a" "b" "9"
      ⟨"illegal_argument_exception", "broken"⟩ true wC2).2.writes = wC2.writes ∧
    (_try_to_migrate "a" "b" "9"
      ⟨"illegal_argument_exception", "broken"⟩ true wC2).2.output = wC2.output :=
  C2_amended_classification_error_propagates "a" "b" "9"
    ⟨"illegal_argument_exception", "broken"⟩ true wC2
    (.exception "Unable to extract bad field from broken") rfl rfl rfl

/-- Claim C5 counterexample: for an unknown error type in non-automatic
mode the operator is prompted (about the error type) before the skip -
the DecisionMemo gate runs before the strategy lookup, contradicting
lookup-first-and-never-prompted. -/
theorem C5_counterexample :
    (_try_to_migrate "a" "b" "7" ⟨"weird_error", "x"⟩ false wC5).2.prompts =
      [Prompt.tryToFix "7" "weird_error"] ∧
    (_try_to_migrate "a" "b" "7" ⟨"weird_error", "x"⟩ false wC5).1 = .ok () :=
  ⟨rfl, rfl⟩

/-- Claim C5 (amended): the DecisionMemo type-tag gate is the first
step, and the strategy lookup happens only after an affirmative
decision.  An unknown error type still reaches the skipped outcome
without raising and without writing, and on an affirmative decision the
unhandled-type diagnostic is emitted; but when the tag is not memoized
and the mode is not automatic-yes the operator is prompted for it before
the skip. -/
theorem C5_amended_gate_before_lookup (index_from index_to recid : String)
    (error : TransferCause) (yesall : Bool) (w : World)
    (hun : error.ty ≠ "illegal_argument_exception") :
    (_try_to_migrate index_from index_to recid error yesall w).1 = .ok () ∧
    (_try_to_migrate index_from index_to recid error yesall w).2.writes =
      w.writes ∧
    (typeDecisionAfter w error.ty yesall = true →
      (_try_to_migrate index_from index_to recid error yesall w).2.output =
        w.output ++ [.dontKnowHowToHandle error.ty recid]) ∧
    (assocLookup w.tryToFixResponses error.ty = none → yesall = false →
      (_try_to_migrate index_from index_to recid error yesall w).2.prompts =
        w.prompts ++ [.tryToFix recid error.ty]) := by
  unfold _try_to_migrate
  dsimp only
  have hlook := consultDecision_lookup w.tryToFixResponses error.ty yesall
    (.tryToFix recid error.ty) w
  rw [show (match assocLookup w.tryToFixResponses error.ty with
        | some b => b
        | none => yesall || w.answers w.promptCount) =
      typeDecisionAfter w error.ty yesall from rfl] at hlook
  cases hd : typeDecisionAfter w error.ty yesall with
  | true =>
    rw [hd] at hlook
    rw [hlook]
    dsimp only
    rw [if_neg hun]
    refine ⟨rfl, consultDecision_writes _ _ _ _ _, fun _ => ?_, fun hn hy => ?_⟩
    · dsimp only
      rw [consultDecision_output]
    · subst hy
      dsimp only
      rw [consultDecision_prompts_first _ _ _ _ hn]
  | false =>
    rw [hd] at hlook
    rw [hlook]
    dsimp only
    refine ⟨rfl, consultDecision_writes _ _ _ _ _, fun habs => ?_, fun hn hy => ?_⟩
    · exact absurd habs (by simp)
    · subst hy
      exact consultDecision_prompts_first _ _ _ _ hn

/-- Witness for the amended claim C5: the unknown type weird_error in
non-automatic mode is skipped without raising, after the operator was
prompted for the type gate and the diagnostic was emitted. -/
theorem C5_witness :
    (_try_to_migrate "a" "b" "7" ⟨"weird_error", "x"⟩ false wC5).1 = .ok () ∧
    (_try_to_migrate "a" "b" "7" ⟨"weird_error", "x"⟩ false wC5).2.writes =
      wC5.writes ∧
    (typeDecisionAfter wC5 "weird_error" false = true →
      (_try_to_migrate "a" "b" "7" ⟨"weird_error", "x"⟩ false wC5).2.output =
        wC5.output ++ [.dontKnowHowToHandle "weird_error" "7"]) ∧
    (assocLookup wC5.tryToFixResponses "weird_error" = none → false = false →
      (_try_to_migrate "a" "b" "7" ⟨"weird_error", "x"⟩ false wC5).2.prompts =
        wC5.prompts ++ [.tryToFix "7" "weird_error"]) :=
  C5_amended_gate_before_lookup "a" "b" "7" ⟨"weird_error", "x"⟩ false wC5
    (by decide)
